import Mathlib

/-!
Shallow embedding of the go-profile tool (src/go-profile.go) and proofs
about its sampling, aggregation and reporting logic.

Modelling conventions:
* Go `uint64` values are natural numbers; every operation that can wrap
  (subtraction, addition into a sum, multiplication by 1024) is taken
  modulo 2^64 exactly where the Go operation wraps.  The tick counter's
  own wrap-around (after 2^64 increments) is not modelled.
* Go `float64` values are modelled exactly by `GoFloat`: a rational number,
  a signed infinity, or NaN.  Arithmetic follows the IEEE rules the Go
  runtime implements (0/0 = NaN, x/0 = ±Inf for x ≠ 0, NaN propagates
  through +, *, and the builtin `min`/`max`).  Rounding of finite values is
  not modelled; the properties verified here are about the exact values.
* Go integer division panics when the divisor is zero; it is embedded as
  `goDiv`, returning `none` in that case.  A report computation that would
  panic mid-way is modelled as returning `none` as a whole.
* Concurrency is abstracted: the sampler's ticks are a sequence of
  `TickInput`s consumed in order, and the run's log lines are listed with
  all tick lines grouped between the start banner and the final report
  (the real interleaving with child output carries no extra information
  for the properties below).
-/

namespace GoProfile

/-- Exact model of a Go `float64`: a finite rational, a signed infinity
(`inf true` = +Inf, `inf false` = -Inf), or NaN. -/
inductive GoFloat where
| fin (q : ℚ)
| inf (pos : Bool)
| nan
deriving DecidableEq, Repr

/-- IEEE addition on the float model. -/
def fadd : GoFloat → GoFloat → GoFloat
| .fin a, .fin b => .fin (a + b)
| .nan, _ => .nan
| _, .nan => .nan
| .inf p, .inf q => if p = q then .inf p else .nan
| .inf p, .fin _ => .inf p
| .fin _, .inf p => .inf p

/-- IEEE negation on the float model. -/
def fneg : GoFloat → GoFloat
| .fin a => .fin (-a)
| .inf p => .inf (!p)
| .nan => .nan

/-- IEEE subtraction on the float model. -/
def fsub (a b : GoFloat) : GoFloat := fadd a (fneg b)

/-- IEEE multiplication on the float model. -/
def fmul : GoFloat → GoFloat → GoFloat
| .fin a, .fin b => .fin (a * b)
| .nan, _ => .nan
| _, .nan => .nan
| .inf p, .inf q => .inf (p = q)
| .inf p, .fin b => if b = 0 then .nan else .inf (p = decide (0 < b))
| .fin a, .inf p => if a = 0 then .nan else .inf (p = decide (0 < a))

/-- IEEE division on the float model.  `0/0` is NaN, `x/0` for `x ≠ 0` is a
signed infinity — exactly what the Go runtime produces. -/
def fdiv : GoFloat → GoFloat → GoFloat
| .nan, _ => .nan
| _, .nan => .nan
| .fin a, .fin b =>
    if b = 0 then (if a = 0 then .nan else .inf (decide (0 < a)))
    else .fin (a / b)
| .inf p, .fin b => if b = 0 then .inf p else .inf (p = decide (0 < b))
| .fin _, .inf _ => .fin 0
| .inf _, .inf _ => .nan

/-- Go's builtin `min` on `float64`: NaN if any argument is NaN. -/
def fmin : GoFloat → GoFloat → GoFloat
| .nan, _ => .nan
| _, .nan => .nan
| .fin a, .fin b => .fin (min a b)
| .inf p, .fin b => if p then .fin b else .inf false
| .fin a, .inf p => if p then .fin a else .inf false
| .inf p, .inf q => .inf (p && q)

/-- Go's builtin `max` on `float64`: NaN if any argument is NaN. -/
def fmax : GoFloat → GoFloat → GoFloat
| .nan, _ => .nan
| _, .nan => .nan
| .fin a, .fin b => .fin (max a b)
| .inf p, .fin b => if p then .inf true else .fin b
| .fin a, .inf p => if p then .inf true else .fin a
| .inf p, .inf q => .inf (p || q)

/-- IEEE strict greater-than: false whenever an operand is NaN. -/
def fgt : GoFloat → GoFloat → Bool
| .nan, _ => false
| _, .nan => false
| .fin a, .fin b => decide (b < a)
| .inf p, .fin _ => p
| .fin _, .inf p => !p
| .inf p, .inf q => p && !q

/-- Is the value a finite real number (not NaN, not an infinity)? -/
def isFin : GoFloat → Bool
| .fin _ => true
| _ => false

/-- Go `uint64` subtraction `a - b` (wrapping modulo `2^64`). -/
def wsub64 (a b : ℕ) : ℕ := (a + 2 ^ 64 - b) % 2 ^ 64

/-- Go unsigned integer division; a zero divisor is a run-time panic,
embedded as `none`. -/
def goDiv (a b : ℕ) : Option ℕ := if b = 0 then none else some (a / b)

/-- Cumulative CPU counter snapshot (`CPUTime` in the source): idle ticks
and total ticks, both `uint64`. -/
structure CPUTime where
  idle : ℕ
  total : ℕ
deriving DecidableEq, Repr

/-- The arithmetic performed by `getCPUUsage` on a previous and a freshly
read counter snapshot: `diffIdle := float64(stats.idle - prev.idle)`,
`diffTotal := float64(stats.total - prev.total)` (wrapping `uint64`
subtractions), `usage := (diffTotal - diffIdle) / diffTotal`.  The division
is not guarded: a zero `diffTotal` reaches IEEE division. -/
def cpuUsageF (prev stats : CPUTime) : GoFloat :=
  fdiv (.fin ((wsub64 stats.total prev.total : ℚ) - (wsub64 stats.idle prev.idle : ℚ)))
    (.fin (wsub64 stats.total prev.total : ℚ))

/-- Modelled from the spec: `usage = 1 - (Δidle / Δtotal)` with the deltas
taken as plain (non-wrapping) differences.  Used to compare the code's
computation against the spec formula. -/
def usageSpec (prev stats : CPUTime) : ℚ :=
  1 - ((stats.idle - prev.idle : ℕ) : ℚ) / ((stats.total - prev.total : ℕ) : ℚ)

/-- Per-device contribution to the GPU tick aggregate.  A device's reported
utilization is the outcome of `strconv.ParseFloat` on the first
space-separated token of its `GpuUtil` field (the parse itself is the
external collaborator): `some q` on success, `none` on failure, in which
case the source substitutes `util = 0.0`. -/
def gpuContribution (d : Option ℚ) : ℚ := d.getD 0

/-- The GPU branch of the sampler tick: `total := 0.0`, add every device's
parsed-or-zero utilization, then divide by the number of devices.  The
division is IEEE: with zero devices it is `0.0/0.0`. -/
def gpuTickPercent (gpus : List (Option ℚ)) : GoFloat :=
  fdiv (.fin (gpus.foldl (fun t d => t + gpuContribution d) 0)) (.fin (gpus.length : ℚ))

/-- Modelled from the spec: the aggregate GPU percent as the arithmetic
mean across all detected devices, a failed parse contributing zero. -/
def gpuMeanSpec (gpus : List (Option ℚ)) : ℚ :=
  (gpus.map gpuContribution).sum / (gpus.length : ℚ)

/-- Memory counter snapshot (`MemoryInfo` in the source), byte-denominated
`uint64` fields. -/
structure MemoryInfo where
  Total : ℕ
  Free : ℕ
  Available : ℕ
  Buffers : ℕ
  Cached : ℕ
deriving DecidableEq, Repr

/-- Go `strings.Split(data, "\n")`, written out over the character list so it
evaluates by kernel reduction. -/
def goLinesAux : List Char → List Char → List String
| [], acc => [String.mk acc.reverse]
| c :: cs, acc =>
    if c = '\n' then String.mk acc.reverse :: goLinesAux cs []
    else goLinesAux cs (c :: acc)

/-- Split a string into its newline-separated lines (as Go
`strings.Split(data, "\n")` does, keeping empty pieces). -/
def goLines (s : String) : List String := goLinesAux s.toList []

/-- Go `strings.Fields(line)`: split around runs of whitespace, dropping
empty fields. -/
def goFieldsAux : List Char → List Char → List String
| [], acc => if acc.isEmpty then [] else [String.mk acc.reverse]
| c :: cs, acc =>
    if c.isWhitespace then
      if acc.isEmpty then goFieldsAux cs []
      else String.mk acc.reverse :: goFieldsAux cs []
    else goFieldsAux cs (c :: acc)

/-- The whitespace-separated fields of a line. -/
def goFields (s : String) : List String := goFieldsAux s.toList []

/-- Go `strconv.ParseUint(s, 10, 64)`: succeeds exactly on a non-empty string
of decimal digits whose value fits in 64 bits; no sign, no separators. -/
def parseUint64 (s : String) : Option ℕ :=
  let cs := s.toList
  if cs.isEmpty then none
  else if cs.all Char.isDigit then
    let n := cs.foldl (fun acc c => acc * 10 + (c.toNat - 48)) 0
    if n < 2 ^ 64 then some n else none
  else none

/-- One iteration of the `getMemoryInfo` loop, applied to the fields of a
line: lines with fewer than two fields are skipped; otherwise the second
field is parsed as `uint64` BEFORE the label is examined, so a parse
failure aborts the whole function (`none`); recognized labels store
`value * 1024` (a wrapping `uint64` multiplication), unrecognized labels
leave the record unchanged. -/
def memFieldsStep (m : MemoryInfo) (fields : List String) : Option MemoryInfo :=
  if fields.length < 2 then some m
  else
    match parseUint64 (fields.getD 1 "") with
    | none => none
    | some value =>
      let key := fields.getD 0 ""
      some (if key = "MemTotal:" then { m with Total := value * 1024 % 2 ^ 64 }
        else if key = "MemFree:" then { m with Free := value * 1024 % 2 ^ 64 }
        else if key = "MemAvailable:" then { m with Available := value * 1024 % 2 ^ 64 }
        else if key = "Buffers:" then { m with Buffers := value * 1024 % 2 ^ 64 }
        else if key = "Cached:" then { m with Cached := value * 1024 % 2 ^ 64 }
        else m)

/-- One iteration of the `getMemoryInfo` loop on a raw line. -/
def memLineStep (m : MemoryInfo) (line : String) : Option MemoryInfo :=
  memFieldsStep m (goFields line)

/-- The function `getMemoryInfo` applied to the text read from the memory counter file:
fold the per-line step over all newline-separated lines, starting from the
zero-valued record; `none` models the error return. -/
def getMemoryInfo (data : String) : Option MemoryInfo :=
  (goLines data).foldlM memLineStep ⟨0, 0, 0, 0, 0⟩

/-- The memory percent computed on a tick:
`float64(Total - Available) / float64(Total) * 100.0`, the subtraction
wrapping on `uint64`, the division unguarded IEEE. -/
def memPercentF (m : MemoryInfo) : GoFloat :=
  fmul (fdiv (.fin (wsub64 m.Total m.Available : ℚ)) (.fin (m.Total : ℚ))) (.fin 100)

/-- The aggregate variables of `main` (lines 62-65 of the source) plus the
retained previous CPU snapshot: `totalTicks`, then min/max/sum for CPU
percent (float), memory used bytes (`uint64`), GPU percent (float). -/
structure AggState where
  totalTicks : ℕ
  minCpu : GoFloat
  maxCpu : GoFloat
  sumCpu : GoFloat
  minRam : ℕ
  maxRam : ℕ
  sumRam : ℕ
  minGpu : GoFloat
  maxGpu : GoFloat
  sumGpu : GoFloat
  prev : CPUTime
deriving DecidableEq, Repr

/-- Initial aggregate state: `minCpu, maxCpu, sumCpu := 100.0, 0.0, 0.0`,
`minRam, maxRam, sumRam := ^uint64(0), 0, 0`,
`minGpu, maxGpu, sumGpu := 100.0, 0.0, 0.0`, zero ticks. -/
def initAgg (prev : CPUTime) : AggState :=
  ⟨0, .fin 100, .fin 0, .fin 0, 2 ^ 64 - 1, 0, 0, .fin 100, .fin 0, .fin 0, prev⟩

/-- What the operating system hands one sampler tick: the result of the
CPU counter read (`none` = read error), the result of the memory counter
read, and the detected GPU devices (consulted only when the GPU utility
is present). -/
structure TickInput where
  cpuRead : Option CPUTime
  memRead : Option MemoryInfo
  gpus : List (Option ℚ)
deriving DecidableEq, Repr

/-- The three-variable update the tick applies to a float aggregate:
`min = min(min, v)`, `max = max(max, v)`, `sum += v`. -/
def floatAggStep : GoFloat × GoFloat × GoFloat → GoFloat → GoFloat × GoFloat × GoFloat
| (mn, mx, sm), v => (fmin mn v, fmax mx v, fadd sm v)

/-- The three-variable update the tick applies to the memory (`uint64`)
aggregate: `min`, `max`, wrapping `sum += v`. -/
def ramAggStep : ℕ × ℕ × ℕ → ℕ → ℕ × ℕ × ℕ
| (mn, mx, sm), v => (min mn v, max mx v, (sm + v) % 2 ^ 64)

/-- One log line of a run, at the granularity the claims need. -/
inductive LogLine where
| banner
| startCmd
| baseline
| startedCmd
| sample (cpuPercent memPercent : GoFloat) (memUsed memTotal : ℕ) (gpu : Option GoFloat)
| separator
| cpuSummary (mn mx rng avg : GoFloat)
| memSummary (mn mx rng avg : ℕ)
| gpuSummary (mn mx rng avg : GoFloat)
| totalTime
| finished
| cmdFailed
deriving DecidableEq, Repr

/-- One iteration of the sampler goroutine (source lines 116-157):
increment `totalTicks`; on a successful CPU read set
`CpuPercent = usage * 100` and replace the retained previous snapshot,
else leave `CpuPercent` at zero; update the CPU aggregate; on a
successful memory read set `used = Total - Available` (wrapping) and the
percent, else leave them zero; update the memory aggregate; when the GPU
utility is present compute the device mean and update the GPU aggregate;
finally emit the sample line (which carries a GPU field exactly when the
utility is present). -/
def tick (hasSmi : Bool) (s : AggState) (inp : TickInput) : AggState × LogLine :=
  let cpuPct : GoFloat := match inp.cpuRead with
    | some curr => fmul (cpuUsageF s.prev curr) (.fin 100)
    | none => .fin 0
  let prevNew : CPUTime := match inp.cpuRead with
    | some curr => curr
    | none => s.prev
  let ca := floatAggStep (s.minCpu, s.maxCpu, s.sumCpu) cpuPct
  let used : ℕ := match inp.memRead with
    | some m => wsub64 m.Total m.Available
    | none => 0
  let memTot : ℕ := match inp.memRead with
    | some m => m.Total
    | none => 0
  let memPct : GoFloat := match inp.memRead with
    | some m => memPercentF m
    | none => .fin 0
  let ra := ramAggStep (s.minRam, s.maxRam, s.sumRam) used
  let ga := if hasSmi then floatAggStep (s.minGpu, s.maxGpu, s.sumGpu) (gpuTickPercent inp.gpus)
    else (s.minGpu, s.maxGpu, s.sumGpu)
  (⟨s.totalTicks + 1, ca.1, ca.2.1, ca.2.2, ra.1, ra.2.1, ra.2.2, ga.1, ga.2.1, ga.2.2, prevNew⟩,
   .sample cpuPct memPct used memTot (if hasSmi then some (gpuTickPercent inp.gpus) else none))

/-- Run the sampler over a sequence of tick inputs, collecting the emitted
sample lines. -/
def runTicks (hasSmi : Bool) (s : AggState) : List TickInput → AggState × List LogLine
| [] => (s, [])
| i :: is =>
    let p := tick hasSmi s i
    let r := runTicks hasSmi p.1 is
    (r.1, p.2 :: r.2)

/-- The CPU average printed by the final report:
`sumCpu / float64(totalTicks)` (IEEE division, `0/0` = NaN). -/
def cpuSummaryAvg (s : AggState) : GoFloat := fdiv s.sumCpu (.fin (s.totalTicks : ℚ))

/-- The GPU average printed by the final report. -/
def gpuSummaryAvg (s : AggState) : GoFloat := fdiv s.sumGpu (.fin (s.totalTicks : ℚ))

/-- The lines of the final aggregate report, given the already computed
memory average; the GPU summary line appears exactly when the GPU utility
is present. -/
def reportBody (hasSmi : Bool) (s : AggState) (ramAvg : ℕ) : List LogLine :=
  [.separator,
   .cpuSummary s.minCpu s.maxCpu (fsub s.maxCpu s.minCpu) (cpuSummaryAvg s),
   .memSummary s.minRam s.maxRam (wsub64 s.maxRam s.minRam) ramAvg]
  ++ (if hasSmi then
      [.gpuSummary s.minGpu s.maxGpu (fsub s.maxGpu s.minGpu) (gpuSummaryAvg s)]
    else [])
  ++ [.totalTime, .finished]

/-- Printing the final report (source lines 221-245): the memory average
`sumRam / totalTicks` is an unguarded `uint64` division, so a run with
zero ticks panics — modelled as `none` for the whole report. -/
def report (hasSmi : Bool) (s : AggState) : Option (List LogLine) :=
  (goDiv s.sumRam s.totalTicks).map (reportBody hasSmi s)

/-- The tail of `main` after `cmd.Wait()`: print the report, then check
the child's exit status; any failure is logged and the tool exits with
code 1, success exits 0. -/
def mainFinish (hasSmi : Bool) (s : AggState) (childExit : ℕ) : Option (List LogLine × ℕ) :=
  (report hasSmi s).map fun ls =>
    if childExit = 0 then (ls, 0) else (ls ++ [.cmdFailed], 1)

/-- The whole run's log: start banner and messages, the tick sample lines,
then the final report (tick lines are grouped; their real-time
interleaving with the banners carries no extra information here). -/
def runLog (hasSmi : Bool) (prev : CPUTime) (inputs : List TickInput)
    (childExit : ℕ) : Option (List LogLine) :=
  let r := runTicks hasSmi (initAgg prev) inputs
  (mainFinish hasSmi r.1 childExit).map fun p =>
    [.banner, .startCmd, .baseline, .startedCmd] ++ r.2 ++ p.1

/-- Does a log line carry any GPU field? -/
def mentionsGpu : LogLine → Bool
| .sample _ _ _ _ g => g.isSome
| .gpuSummary _ _ _ _ => true
| _ => false

/-- Is the line the CPU summary line of the final report? -/
def isCpuSummary : LogLine → Bool
| .cpuSummary _ _ _ _ => true
| _ => false

/-- The CPU percent field of a sample line. -/
def sampleCpuPercent : LogLine → Option GoFloat
| .sample c _ _ _ _ => some c
| _ => none

/-- The memory percent field of a sample line. -/
def sampleMemPercent : LogLine → Option GoFloat
| .sample _ mp _ _ _ => some mp
| _ => none

/-- The memory used field of a sample line. -/
def sampleMemUsed : LogLine → Option ℕ
| .sample _ _ u _ _ => some u
| _ => none

/-- The GPU field of a sample line (`none` when the line has no GPU
field). -/
def sampleGpu : LogLine → Option GoFloat
| .sample _ _ _ _ g => g
| _ => none

/-- A concrete populated aggregate state (five completed ticks) used to
evaluate the end-of-run exit path. -/
def exitState : AggState :=
  ⟨5, .fin 0, .fin 50, .fin 120, 1000, 3000, 10000, .fin 100, .fin 0, .fin 0, ⟨0, 0⟩⟩

/- ------------------------------------------------------------------ -/
/- Theorems. -/
/- ------------------------------------------------------------------ -/

theorem wsub64_eq_sub {a b : ℕ} (hba : b ≤ a) (ha : a < 2 ^ 64) :
    wsub64 a b = a - b := by
  unfold wsub64
  have h1 : a + 2 ^ 64 - b = (a - b) + 2 ^ 64 := by omega
  rw [h1, Nat.add_mod_right, Nat.mod_eq_of_lt (by omega)]

theorem fdiv_fin_fin (a b : ℚ) (hb : b ≠ 0) :
    fdiv (.fin a) (.fin b) = .fin (a / b) := by
  simp [fdiv, hb]

theorem cpuUsageF_eq_spec (p c : CPUTime)
    (h1 : p.idle ≤ c.idle) (h2 : p.total ≤ c.total)
    (h3 : c.idle < 2 ^ 64) (h4 : c.total < 2 ^ 64)
    (h6 : 0 < c.total - p.total) :
    cpuUsageF p c = .fin (usageSpec p c) := by
  unfold cpuUsageF usageSpec
  rw [wsub64_eq_sub h1 h3, wsub64_eq_sub h2 h4]
  have ht : ((c.total - p.total : ℕ) : ℚ) ≠ 0 := Nat.cast_ne_zero.mpr (by omega)
  rw [fdiv_fin_fin _ _ ht]
  congr 1
  rw [sub_div, div_self ht]

/-- Claim C3: for snapshots with non-decreasing counters, `Δidle ≤ Δtotal`
and `Δtotal > 0`, `getCPUUsage` computes exactly `1 - Δidle/Δtotal`, which
lies in `[0,1]`, and increasing only the idle delta strictly lowers the
utilization. -/
theorem c3_cpu_usage_formula_range_mono (p c c2 : CPUTime)
    (h1 : p.idle ≤ c.idle) (h2 : p.total ≤ c.total)
    (h3 : c.idle < 2 ^ 64) (h4 : c.total < 2 ^ 64)
    (h5 : c.idle - p.idle ≤ c.total - p.total) (h6 : 0 < c.total - p.total)
    (h7 : p.idle ≤ c2.idle) (h8 : c2.idle < 2 ^ 64) (h9 : c2.total = c.total)
    (h10 : c.idle < c2.idle) (h11 : c2.idle - p.idle ≤ c2.total - p.total) :
    cpuUsageF p c = .fin (usageSpec p c) ∧
    cpuUsageF p c2 = .fin (usageSpec p c2) ∧
    0 ≤ usageSpec p c ∧ usageSpec p c ≤ 1 ∧
    usageSpec p c2 < usageSpec p c := by
  have hu := h11
  have hdt : (0 : ℚ) < ((c.total - p.total : ℕ) : ℚ) := by exact_mod_cast h6
  refine ⟨cpuUsageF_eq_spec p c h1 h2 h3 h4 h6,
    cpuUsageF_eq_spec p c2 h7 (h9 ▸ h2) h8 (h9 ▸ h4) (h9 ▸ h6), ?_, ?_, ?_⟩
  · unfold usageSpec
    have hle : ((c.idle - p.idle : ℕ) : ℚ) ≤ ((c.total - p.total : ℕ) : ℚ) := by
      exact_mod_cast h5
    have := (div_le_one hdt).mpr hle
    linarith
  · unfold usageSpec
    have hnn : (0 : ℚ) ≤ ((c.idle - p.idle : ℕ) : ℚ) / ((c.total - p.total : ℕ) : ℚ) :=
      div_nonneg (by positivity) (le_of_lt hdt)
    linarith
  · unfold usageSpec
    rw [h9]
    have hlt : ((c.idle - p.idle : ℕ) : ℚ) < ((c2.idle - p.idle : ℕ) : ℚ) := by
      exact_mod_cast (by omega : c.idle - p.idle < c2.idle - p.idle)
    have hq : ((c.idle - p.idle : ℕ) : ℚ) / ((c.total - p.total : ℕ) : ℚ) <
        ((c2.idle - p.idle : ℕ) : ℚ) / ((c.total - p.total : ℕ) : ℚ) :=
      div_lt_div_of_pos_right hlt hdt
    linarith

/-- Witness for C3 at concrete snapshots: prev = (2,10), curr = (4,20),
curr2 = (6,20). -/
theorem c3_witness :
    cpuUsageF ⟨2, 10⟩ ⟨4, 20⟩ = .fin (usageSpec ⟨2, 10⟩ ⟨4, 20⟩) ∧
    cpuUsageF ⟨2, 10⟩ ⟨6, 20⟩ = .fin (usageSpec ⟨2, 10⟩ ⟨6, 20⟩) ∧
    0 ≤ usageSpec ⟨2, 10⟩ ⟨4, 20⟩ ∧ usageSpec ⟨2, 10⟩ ⟨4, 20⟩ ≤ 1 ∧
    usageSpec ⟨2, 10⟩ ⟨6, 20⟩ < usageSpec ⟨2, 10⟩ ⟨4, 20⟩ :=
  c3_cpu_usage_formula_range_mono ⟨2, 10⟩ ⟨4, 20⟩ ⟨6, 20⟩
    (by norm_num) (by norm_num) (by norm_num) (by norm_num) (by norm_num)
    (by norm_num) (by norm_num) (by norm_num) (by norm_num) (by norm_num)
    (by norm_num)

theorem foldl_add_map {α : Type} (f : α → ℚ) (a : ℚ) (l : List α) :
    l.foldl (fun t d => t + f d) a = a + (l.map f).sum := by
  induction l generalizing a with
  | nil => simp
  | cons h t ih => simp [ih, add_assoc]

/-- Claim C5: with at least one detected device, the tick's aggregate GPU
percent is exactly the arithmetic mean of the per-device contributions,
an unparseable device contributing zero without aborting the probe. -/
theorem c5_gpu_mean (gpus : List (Option ℚ)) (h : gpus ≠ []) :
    gpuTickPercent gpus = .fin (gpuMeanSpec gpus) := by
  unfold gpuTickPercent gpuMeanSpec
  have hl : gpus.length ≠ 0 := fun hn => h (List.length_eq_zero.mp hn)
  rw [foldl_add_map, zero_add, fdiv_fin_fin _ _ (Nat.cast_ne_zero.mpr hl)]

/-- Witness for C5: one unparseable device and one device reporting 37
yield an aggregate of 18.5. -/
theorem c5_witness :
    gpuTickPercent [none, some 37] = .fin (gpuMeanSpec [none, some 37]) ∧
    gpuMeanSpec [none, some 37] = 18.5 :=
  ⟨c5_gpu_mean [none, some 37] (by simp),
   by norm_num [gpuMeanSpec, gpuContribution]⟩

/-- Counterexample to claim C9 as stated: a line with an unrecognized
label whose value field is not numeric makes `getMemoryInfo` return an
error, because the value is parsed before the label is examined; the same
unrecognized label with a numeric value is ignored as the claim expects. -/
theorem c9_counterexample :
    getMemoryInfo ("MemTotal: 100 kB\nWeird: abc\n") = none ∧
    getMemoryInfo ("MemTotal: 100 kB\nWeird: 42\n") = some ⟨102400, 0, 0, 0, 0⟩ := by
  constructor <;> decide

/-- Claim C9 (amended): lines with fewer than two fields are skipped;
a line whose second field parses as `uint64` is ignored when its label is
unrecognized and stores `value * 1024` bytes (wrapping `uint64`
multiplication) for each of the five recognized labels; but a line whose
second field fails to parse as `uint64` makes the function return an
error even when the label is unrecognized. -/
theorem c9_memoryinfo_amended (m : MemoryInfo) (key v w : String)
    (rest fs : List String) (n : ℕ)
    (hv : parseUint64 v = some n)
    (hk : key ∉ (["MemTotal:", "MemFree:", "MemAvailable:", "Buffers:", "Cached:"] : List String))
    (hfs : fs.length < 2)
    (hw : parseUint64 w = none) :
    memFieldsStep m (key :: v :: rest) = some m ∧
    memFieldsStep m fs = some m ∧
    memFieldsStep m ("MemTotal:" :: v :: rest) = some { m with Total := n * 1024 % 2 ^ 64 } ∧
    memFieldsStep m ("MemFree:" :: v :: rest) = some { m with Free := n * 1024 % 2 ^ 64 } ∧
    memFieldsStep m ("MemAvailable:" :: v :: rest) =
      some { m with Available := n * 1024 % 2 ^ 64 } ∧
    memFieldsStep m ("Buffers:" :: v :: rest) = some { m with Buffers := n * 1024 % 2 ^ 64 } ∧
    memFieldsStep m ("Cached:" :: v :: rest) = some { m with Cached := n * 1024 % 2 ^ 64 } ∧
    memFieldsStep m (key :: w :: rest) = none := by
  simp only [List.mem_cons, List.not_mem_nil, or_false, not_or] at hk
  obtain ⟨k1, k2, k3, k4, k5⟩ := hk
  refine ⟨?_, ?_, ?_, ?_, ?_, ?_, ?_, ?_⟩ <;>
    simp [memFieldsStep, hv, hw, hfs, k1, k2, k3, k4, k5]

/-- Witness for C9 (amended) at concrete inputs. -/
theorem c9_witness :
    memFieldsStep ⟨1, 2, 3, 4, 5⟩ ["HugePages:", "42", "kB"] = some ⟨1, 2, 3, 4, 5⟩ ∧
    memFieldsStep ⟨1, 2, 3, 4, 5⟩ ["x"] = some ⟨1, 2, 3, 4, 5⟩ ∧
    memFieldsStep ⟨1, 2, 3, 4, 5⟩ ["MemTotal:", "42", "kB"] = some ⟨43008, 2, 3, 4, 5⟩ ∧
    memFieldsStep ⟨1, 2, 3, 4, 5⟩ ["MemFree:", "42", "kB"] = some ⟨1, 43008, 3, 4, 5⟩ ∧
    memFieldsStep ⟨1, 2, 3, 4, 5⟩ ["MemAvailable:", "42", "kB"] = some ⟨1, 2, 43008, 4, 5⟩ ∧
    memFieldsStep ⟨1, 2, 3, 4, 5⟩ ["Buffers:", "42", "kB"] = some ⟨1, 2, 3, 43008, 5⟩ ∧
    memFieldsStep ⟨1, 2, 3, 4, 5⟩ ["Cached:", "42", "kB"] = some ⟨1, 2, 3, 4, 43008⟩ ∧
    memFieldsStep ⟨1, 2, 3, 4, 5⟩ ["HugePages:", "abc", "kB"] = none :=
  c9_memoryinfo_amended ⟨1, 2, 3, 4, 5⟩ ("HugePages:") ("42") ("abc") ["kB"] ["x"] 42
    (by decide) (by decide) (by decide) (by decide)

/-- Claim C2 (the code violates it): with zero completed ticks, printing
the aggregate report is not division-safe.  The CPU average is
`0.0/0.0 = NaN` — a garbage number, not a no-data indication — and the
memory average `sumRam/totalTicks` is a `uint64` division by zero, a Go
run-time panic, modelled as the report returning `none`. -/
theorem c2_zero_ticks_divzero :
    report false (initAgg ⟨0, 0⟩) = none ∧
    report true (initAgg ⟨0, 0⟩) = none ∧
    cpuSummaryAvg (initAgg ⟨0, 0⟩) = .nan := by
  refine ⟨?_, ?_, ?_⟩ <;> decide

/-- Counterexample to claim C1 as stated: a child exit code of 7 makes the
tool exit with code 1, not 7. -/
theorem c1_counterexample :
    Option.map Prod.snd (mainFinish false exitState 7) = some 1 ∧
    Option.map Prod.snd (mainFinish false exitState 7) ≠ some 7 := by
  refine ⟨?_, ?_⟩ <;> decide

/-- Claim C1 (amended): when the child ran and exited with any non-zero
code, the tool's own exit code is 1 (the child's specific code is not
mirrored), and the aggregate summary report — including the CPU summary
line and the finish banner — is still emitted before exiting. -/
theorem c1_exit_amended (hasSmi : Bool) (s : AggState) (c : ℕ)
    (ht : 0 < s.totalTicks) (hc : c ≠ 0) :
    mainFinish hasSmi s c =
      some (reportBody hasSmi s (s.sumRam / s.totalTicks) ++ [.cmdFailed], 1) ∧
    (reportBody hasSmi s (s.sumRam / s.totalTicks)).any isCpuSummary = true ∧
    LogLine.finished ∈ reportBody hasSmi s (s.sumRam / s.totalTicks) := by
  have hd : goDiv s.sumRam s.totalTicks = some (s.sumRam / s.totalTicks) := by
    unfold goDiv; rw [if_neg (by omega)]
  refine ⟨?_, ?_, ?_⟩
  · unfold mainFinish report
    rw [hd]
    simp [hc]
  · cases hasSmi <;> simp [reportBody, isCpuSummary]
  · cases hasSmi <;> simp [reportBody]

/-- Witness for C1 (amended) at a concrete populated state and child exit
code 9. -/
theorem c1_witness :
    mainFinish false exitState 9 =
      some (reportBody false exitState (exitState.sumRam / exitState.totalTicks) ++
        [.cmdFailed], 1) ∧
    (reportBody false exitState (exitState.sumRam / exitState.totalTicks)).any
      isCpuSummary = true ∧
    LogLine.finished ∈ reportBody false exitState (exitState.sumRam / exitState.totalTicks) :=
  c1_exit_amended false exitState 9 (by decide) (by decide)

theorem isFin_fdiv_zero (a : ℚ) : isFin (fdiv (.fin a) (.fin 0)) = false := by
  by_cases ha : a = 0 <;> simp [fdiv, ha, isFin]

theorem isFin_fmul_hundred (x : GoFloat) (h : isFin x = false) :
    isFin (fmul x (.fin 100)) = false := by
  cases x with
  | fin q => simp [isFin] at h
  | inf p => norm_num [fmul, isFin]
  | nan => simp [fmul, isFin]

theorem fadd_nan (x : GoFloat) : fadd x .nan = .nan := by cases x <;> rfl

theorem fmin_nan (x : GoFloat) : fmin x .nan = .nan := by cases x <;> rfl

theorem fmax_nan (x : GoFloat) : fmax x .nan = .nan := by cases x <;> rfl

/-- Counterexample to claim C4 as stated: on a snapshot pair with
`Δtotal = 0` the division is performed, not guarded — it produces IEEE
NaN, which is neither a rejection of the sample nor a clamp to the
previous value: the NaN is logged as the tick's CPU percent and enters
the running sum. -/
theorem c4_counterexample :
    cpuUsageF ⟨5, 10⟩ ⟨5, 10⟩ = .nan ∧
    sampleCpuPercent (tick false (initAgg ⟨5, 10⟩) ⟨some ⟨5, 10⟩, none, []⟩).2 = some .nan ∧
    (tick false (initAgg ⟨5, 10⟩) ⟨some ⟨5, 10⟩, none, []⟩).1.sumCpu = .nan := by
  have h1 : cpuUsageF ⟨5, 10⟩ ⟨5, 10⟩ = .nan := by
    norm_num [cpuUsageF, wsub64, fdiv]
  refine ⟨h1, ?_, ?_⟩ <;>
    simp [tick, sampleCpuPercent, floatAggStep, initAgg, h1, fmul, fadd]

/-- Claim C4 (amended): for snapshot pairs with `Δtotal = 0` the division
by `Δtotal` IS performed (it is not guarded); the result is a non-finite
IEEE value (NaN when `Δidle = 0`, an infinity otherwise), the sample is
neither rejected nor clamped: the non-finite value is scaled by 100,
logged as the tick's CPU percent, and added into the running CPU sum. -/
theorem c4_divzero_amended (h : Bool) (s : AggState) (inp : TickInput) (c : CPUTime)
    (hcr : inp.cpuRead = some c)
    (h0 : wsub64 c.total s.prev.total = 0) :
    isFin (cpuUsageF s.prev c) = false ∧
    isFin (fmul (cpuUsageF s.prev c) (.fin 100)) = false ∧
    sampleCpuPercent (tick h s inp).2 = some (fmul (cpuUsageF s.prev c) (.fin 100)) ∧
    (tick h s inp).1.sumCpu = fadd s.sumCpu (fmul (cpuUsageF s.prev c) (.fin 100)) := by
  have hz : ((wsub64 c.total s.prev.total : ℕ) : ℚ) = 0 := by rw [h0]; norm_num
  have hnf : isFin (cpuUsageF s.prev c) = false := by
    unfold cpuUsageF
    rw [hz, zero_sub]
    exact isFin_fdiv_zero _
  refine ⟨hnf, isFin_fmul_hundred _ hnf, ?_, ?_⟩ <;>
    simp [tick, hcr, floatAggStep, sampleCpuPercent]

/-- Witness for C4 (amended): previous snapshot (3,7), current (4,7) —
idle moved, total did not. -/
theorem c4_witness :
    isFin (cpuUsageF ⟨3, 7⟩ ⟨4, 7⟩) = false ∧
    isFin (fmul (cpuUsageF ⟨3, 7⟩ ⟨4, 7⟩) (.fin 100)) = false ∧
    sampleCpuPercent (tick false (initAgg ⟨3, 7⟩) ⟨some ⟨4, 7⟩, none, []⟩).2 =
      some (fmul (cpuUsageF ⟨3, 7⟩ ⟨4, 7⟩) (.fin 100)) ∧
    (tick false (initAgg ⟨3, 7⟩) ⟨some ⟨4, 7⟩, none, []⟩).1.sumCpu =
      fadd (initAgg ⟨3, 7⟩).sumCpu (fmul (cpuUsageF ⟨3, 7⟩ ⟨4, 7⟩) (.fin 100)) :=
  c4_divzero_amended false (initAgg ⟨3, 7⟩) ⟨some ⟨4, 7⟩, none, []⟩ ⟨4, 7⟩
    (by rfl) (by decide)

/-- Counterexample to claim C6 as stated: with the GPU utility present and
zero detected devices, a division by zero DOES occur (`0.0/0.0 = NaN`), a
GPU value is computed, logged in the sample line, and folded into all
three GPU aggregates — the tick is not treated as GPU-unavailable. -/
theorem c6_counterexample :
    gpuTickPercent [] = .nan ∧
    sampleGpu (tick true (initAgg ⟨0, 0⟩) ⟨none, none, []⟩).2 = some .nan ∧
    (tick true (initAgg ⟨0, 0⟩) ⟨none, none, []⟩).1.sumGpu = .nan ∧
    (tick true (initAgg ⟨0, 0⟩) ⟨none, none, []⟩).1.minGpu = .nan ∧
    (tick true (initAgg ⟨0, 0⟩) ⟨none, none, []⟩).1.maxGpu = .nan := by
  refine ⟨?_, ?_, ?_, ?_, ?_⟩ <;> decide

/-- Claim C6 (amended): when the GPU utility is present and zero devices
are detected on a tick, the code performs `0.0/0.0`, yielding NaN; this
NaN GPU percent is computed, logged in the tick's sample line, and
propagated into the GPU min/max/sum aggregates (poisoning them), instead
of the tick being treated as GPU-unavailable. -/
theorem c6_zero_gpus_amended (s : AggState) (inp : TickInput) (hg : inp.gpus = []) :
    gpuTickPercent inp.gpus = .nan ∧
    sampleGpu (tick true s inp).2 = some .nan ∧
    (tick true s inp).1.sumGpu = .nan ∧
    (tick true s inp).1.minGpu = .nan ∧
    (tick true s inp).1.maxGpu = .nan := by
  have hp : gpuTickPercent inp.gpus = .nan := by rw [hg]; decide
  refine ⟨hp, ?_, ?_, ?_, ?_⟩ <;>
    simp [tick, floatAggStep, hp, sampleGpu, fadd_nan, fmin_nan, fmax_nan]

/-- Witness for C6 (amended) at a concrete state and tick input. -/
theorem c6_witness :
    gpuTickPercent (TickInput.mk none none []).gpus = .nan ∧
    sampleGpu (tick true (initAgg ⟨1, 2⟩) ⟨none, none, []⟩).2 = some .nan ∧
    (tick true (initAgg ⟨1, 2⟩) ⟨none, none, []⟩).1.sumGpu = .nan ∧
    (tick true (initAgg ⟨1, 2⟩) ⟨none, none, []⟩).1.minGpu = .nan ∧
    (tick true (initAgg ⟨1, 2⟩) ⟨none, none, []⟩).1.maxGpu = .nan :=
  c6_zero_gpus_amended (initAgg ⟨1, 2⟩) ⟨none, none, []⟩ (by rfl)

theorem fgt_hundred_of_lt (u T : ℕ) (hTu : T < u) :
    fgt (fmul (fdiv (.fin (u : ℚ)) (.fin (T : ℚ))) (.fin 100)) (.fin 100) = true := by
  rcases Nat.eq_zero_or_pos T with hT0 | hTpos
  · subst hT0
    have hu : ((u : ℚ)) ≠ 0 := Nat.cast_ne_zero.mpr (by omega)
    have hu' : (0 : ℚ) < (u : ℚ) := by exact_mod_cast hTu
    norm_num [fdiv, fmul, fgt, hu, hu']
  · have hT' : (0 : ℚ) < (T : ℚ) := by exact_mod_cast hTpos
    have hu : ((T : ℚ)) < (u : ℚ) := by exact_mod_cast hTu
    rw [fdiv_fin_fin _ _ (ne_of_gt hT')]
    have h1 : (1 : ℚ) < (u : ℚ) / (T : ℚ) := (one_lt_div hT').mpr hu
    have h2 : (100 : ℚ) < (u : ℚ) / (T : ℚ) * 100 := by nlinarith
    simp [fmul, fgt, h2]

/-- Claim C10: on a tick whose memory snapshot has `Available > Total`,
`used = Total - Available` wraps modulo `2^64` to the enormous value
`Total + 2^64 - Available`, the derived memory percent compares greater
than 100, and no guard rejects the snapshot: the wrapped value is logged
in the sample line and folded into the memory aggregates. -/
theorem c10_mem_used_wraps (h : Bool) (s : AggState) (inp : TickInput) (m : MemoryInfo)
    (hm : inp.memRead = some m) (hA : m.Available < 2 ^ 64) (hTA : m.Total < m.Available) :
    wsub64 m.Total m.Available = m.Total + 2 ^ 64 - m.Available ∧
    (wsub64 m.Total m.Available : ℤ) = ((m.Total : ℤ) - (m.Available : ℤ)) % 2 ^ 64 ∧
    2 ^ 64 - m.Available ≤ wsub64 m.Total m.Available ∧
    m.Total < wsub64 m.Total m.Available ∧
    fgt (memPercentF m) (.fin 100) = true ∧
    sampleMemUsed (tick h s inp).2 = some (wsub64 m.Total m.Available) ∧
    sampleMemPercent (tick h s inp).2 = some (memPercentF m) ∧
    (tick h s inp).1.sumRam = (s.sumRam + wsub64 m.Total m.Available) % 2 ^ 64 ∧
    (tick h s inp).1.maxRam = max s.maxRam (wsub64 m.Total m.Available) := by
  have hw : wsub64 m.Total m.Available = m.Total + 2 ^ 64 - m.Available := by
    unfold wsub64; omega
  refine ⟨hw, ?_, by omega, by omega, ?_, ?_, ?_, ?_, ?_⟩
  · rw [hw]; omega
  · unfold memPercentF
    exact fgt_hundred_of_lt _ _ (by omega)
  all_goals simp [tick, hm, sampleMemUsed, sampleMemPercent, ramAggStep]

/-- Witness for C10 at the concrete snapshot Total = 100,
Available = 200. -/
theorem c10_witness :
    wsub64 100 200 = 100 + 2 ^ 64 - 200 ∧
    (wsub64 100 200 : ℤ) = ((100 : ℤ) - (200 : ℤ)) % 2 ^ 64 ∧
    2 ^ 64 - 200 ≤ wsub64 100 200 ∧
    (100 : ℕ) < wsub64 100 200 ∧
    fgt (memPercentF ⟨100, 0, 200, 0, 0⟩) (.fin 100) = true ∧
    sampleMemUsed (tick false (initAgg ⟨0, 0⟩) ⟨none, some ⟨100, 0, 200, 0, 0⟩, []⟩).2 =
      some (wsub64 100 200) ∧
    sampleMemPercent (tick false (initAgg ⟨0, 0⟩) ⟨none, some ⟨100, 0, 200, 0, 0⟩, []⟩).2 =
      some (memPercentF ⟨100, 0, 200, 0, 0⟩) ∧
    (tick false (initAgg ⟨0, 0⟩) ⟨none, some ⟨100, 0, 200, 0, 0⟩, []⟩).1.sumRam =
      ((initAgg ⟨0, 0⟩).sumRam + wsub64 100 200) % 2 ^ 64 ∧
    (tick false (initAgg ⟨0, 0⟩) ⟨none, some ⟨100, 0, 200, 0, 0⟩, []⟩).1.maxRam =
      max (initAgg ⟨0, 0⟩).maxRam (wsub64 100 200) :=
  c10_mem_used_wraps false (initAgg ⟨0, 0⟩) ⟨none, some ⟨100, 0, 200, 0, 0⟩, []⟩
    ⟨100, 0, 200, 0, 0⟩ (by rfl) (by norm_num) (by norm_num)

theorem opt_eq_some_getD {α : Type} (o : Option α) (d : α) (h : o.isSome = true) :
    o = some (o.getD d) := by
  cases o with
  | none => simp at h
  | some a => rfl

theorem runTicks_no_gpu (inputs : List TickInput) :
    ∀ s l, l ∈ (runTicks false s inputs).2 → mentionsGpu l = false := by
  induction inputs with
  | nil => intro s l h; simp [runTicks] at h
  | cons i is ih =>
      intro s l h
      simp only [runTicks, List.mem_cons] at h
      rcases h with h | h
      · subst h; simp [tick, mentionsGpu]
      · exact ih _ _ h

theorem reportBody_false_no_gpu (s : AggState) (v : ℕ) :
    ∀ l ∈ reportBody false s v, mentionsGpu l = false := by
  intro l hl
  simp only [reportBody, Bool.false_eq_true, if_false, List.nil_append,
    List.append_assoc, List.cons_append, List.nil_append, List.mem_cons,
    List.not_mem_nil, or_false] at hl
  rcases hl with rfl | rfl | rfl | rfl | rfl <;> rfl

theorem mainFinish_false_no_gpu (s : AggState) (c : ℕ) (p : List LogLine × ℕ)
    (h : mainFinish false s c = some p) : ∀ l ∈ p.1, mentionsGpu l = false := by
  unfold mainFinish report at h
  cases hd : goDiv s.sumRam s.totalTicks with
  | none => rw [hd] at h; simp at h
  | some v =>
      rw [hd] at h
      rw [Option.map_some', Option.map_some'] at h
      replace h := Option.some.inj h
      subst h
      intro l hl
      by_cases hc : c = 0
      · rw [if_pos hc] at hl
        exact reportBody_false_no_gpu s v l hl
      · rw [if_neg hc] at hl
        rcases List.mem_append.mp hl with hl' | hl'
        · exact reportBody_false_no_gpu s v l hl'
        · simp only [List.mem_cons, List.not_mem_nil, or_false] at hl'
          subst hl'; rfl

/-- Claim C8: when the GPU utility is absent for the run, no line of the
whole run's log — neither the per-tick sample lines nor the final
aggregate report — carries a GPU field. -/
theorem c8_gpu_absent_no_gpu_lines (prev : CPUTime) (inputs : List TickInput) (c : ℕ)
    (ls : List LogLine) (h : runLog false prev inputs c = some ls) :
    ∀ l ∈ ls, mentionsGpu l = false := by
  simp only [runLog] at h
  cases hm : mainFinish false (runTicks false (initAgg prev) inputs).1 c with
  | none => rw [hm] at h; simp at h
  | some p =>
      rw [hm] at h
      rw [Option.map_some'] at h
      replace h := Option.some.inj h
      intro l hl
      rw [← h] at hl
      simp only [List.mem_append, List.mem_cons, List.not_mem_nil, or_false] at hl
      rcases hl with ((hl | hl | hl | hl) | hl) | hl
      · subst hl; rfl
      · subst hl; rfl
      · subst hl; rfl
      · subst hl; rfl
      · exact runTicks_no_gpu inputs _ l hl
      · exact mainFinish_false_no_gpu _ c p hm l hl

/-- Witness for C8: a concrete one-tick run with the GPU utility absent;
its start banner (a line of that run's log) mentions no GPU. -/
theorem c8_witness : mentionsGpu LogLine.banner = false :=
  c8_gpu_absent_no_gpu_lines ⟨0, 0⟩ [⟨none, none, []⟩] 0
    ((runLog false ⟨0, 0⟩ [⟨none, none, []⟩] 0).getD [])
    (opt_eq_some_getD _ [] (by decide))
    LogLine.banner (List.Mem.head _)

theorem foldl_min_le_init {α : Type} [LinearOrder α] :
    ∀ (l : List α) (a : α), l.foldl min a ≤ a
| [], a => le_refl a
| h :: t, a => le_trans (foldl_min_le_init t (min a h)) (min_le_left a h)

theorem foldl_min_le_mem {α : Type} [LinearOrder α] (l : List α) :
    ∀ (a v : α), v ∈ l → l.foldl min a ≤ v := by
  induction l with
  | nil => intro a v hv; simp at hv
  | cons h t ih =>
      intro a v hv
      rcases List.mem_cons.mp hv with rfl | hv'
      · exact le_trans (foldl_min_le_init t (min a v)) (min_le_right a v)
      · exact ih (min a h) v hv'

theorem le_foldl_max_init {α : Type} [LinearOrder α] :
    ∀ (l : List α) (a : α), a ≤ l.foldl max a
| [], a => le_refl a
| h :: t, a => le_trans (le_max_left a h) (le_foldl_max_init t (max a h))

theorem mem_le_foldl_max {α : Type} [LinearOrder α] (l : List α) :
    ∀ (a v : α), v ∈ l → v ≤ l.foldl max a := by
  induction l with
  | nil => intro a v hv; simp at hv
  | cons h t ih =>
      intro a v hv
      rcases List.mem_cons.mp hv with rfl | hv'
      · exact le_trans (le_max_right a v) (le_foldl_max_init t (max a v))
      · exact ih (max a h) v hv'

theorem foldl_float_triple (l : List ℚ) :
    ∀ a b c : ℚ,
      l.foldl (fun t v => floatAggStep t (.fin v)) (.fin a, .fin b, .fin c) =
        (.fin (l.foldl min a), .fin (l.foldl max b), .fin (c + l.sum)) := by
  induction l with
  | nil => intro a b c; simp
  | cons h t ih =>
      intro a b c
      rw [List.foldl_cons,
        show floatAggStep (.fin a, .fin b, .fin c) (.fin h) =
          ((.fin (min a h) : GoFloat), (.fin (max b h) : GoFloat),
            (.fin (c + h) : GoFloat)) from rfl,
        ih, List.foldl_cons, List.foldl_cons, List.sum_cons, ← add_assoc]

theorem foldl_ram_triple (l : List ℕ) :
    ∀ a b c : ℕ, c < 2 ^ 64 →
      l.foldl ramAggStep (a, b, c) =
        (l.foldl min a, l.foldl max b, (c + l.sum) % 2 ^ 64) := by
  induction l with
  | nil =>
      intro a b c hc
      simp only [List.foldl_nil, List.sum_nil, Nat.add_zero]
      rw [Nat.mod_eq_of_lt hc]
  | cons h t ih =>
      intro a b c hc
      simp only [List.foldl_cons, List.sum_cons, ramAggStep]
      rw [ih _ _ _ (Nat.mod_lt _ (by norm_num))]
      rw [Nat.mod_add_mod, add_assoc]

theorem runTicks_totalTicks (h : Bool) (inputs : List TickInput) :
    ∀ s, (runTicks h s inputs).1.totalTicks = s.totalTicks + inputs.length := by
  induction inputs with
  | nil => intro s; simp [runTicks]
  | cons i is ih =>
      intro s
      simp only [runTicks, List.length_cons, ih]
      simp only [tick]
      omega

/-- Counterexample to claim C7 as stated: for the memory-used aggregate
the reported average is the TRUNCATED integer quotient, not `sum/count`
exactly: after the two updates 1 and 2, the report shows an average of 1
byte while the exact average is 3/2. -/
theorem c7_counterexample :
    goDiv (([1, 2] : List ℕ).foldl ramAggStep (2 ^ 64 - 1, 0, 0)).2.2
      ([1, 2] : List ℕ).length = some 1 ∧
    ((([1, 2] : List ℕ).sum : ℚ) / ((([1, 2] : List ℕ).length : ℕ) : ℚ) ≠ ((1 : ℕ) : ℚ)) := by
  constructor
  · decide
  · norm_num

/-- Claim C7 (amended): for any non-empty update sequence, each of the
three aggregates (all updated by the same min/max/sum step the tick
applies, CPU and GPU floats starting from min=100/max=0/sum=0, memory
`uint64` starting from min=2^64-1/max=0/sum=0) ends with
`min ≤ every observed value ≤ max`, the tick counter equals the number of
completed ticks, and the float (CPU/GPU) reported average is exactly
`sum/count`; the memory reported average, however, is the truncated
integer quotient of the wrapped sum, `(sum mod 2^64) / count`. -/
theorem c7_aggregate_invariants (values : List ℚ) (rams : List ℕ)
    (hasSmi : Bool) (s : AggState) (inputs : List TickInput)
    (x : ℚ) (r : ℕ) (hx : x ∈ values) (hr : r ∈ rams) :
    (values.foldl (fun t v => floatAggStep t (.fin v)) (.fin 100, .fin 0, .fin 0)).1 =
      .fin (values.foldl min 100) ∧
    (values.foldl (fun t v => floatAggStep t (.fin v)) (.fin 100, .fin 0, .fin 0)).2.1 =
      .fin (values.foldl max 0) ∧
    values.foldl min 100 ≤ x ∧ x ≤ values.foldl max 0 ∧
    fdiv (values.foldl (fun t v => floatAggStep t (.fin v)) (.fin 100, .fin 0, .fin 0)).2.2
      (.fin (values.length : ℚ)) = .fin (values.sum / (values.length : ℚ)) ∧
    (rams.foldl ramAggStep (2 ^ 64 - 1, 0, 0)).1 ≤ r ∧
    r ≤ (rams.foldl ramAggStep (2 ^ 64 - 1, 0, 0)).2.1 ∧
    goDiv (rams.foldl ramAggStep (2 ^ 64 - 1, 0, 0)).2.2 rams.length =
      some (rams.sum % 2 ^ 64 / rams.length) ∧
    (runTicks hasSmi s inputs).1.totalTicks = s.totalTicks + inputs.length := by
  have hflt := foldl_float_triple values 100 0 0
  have hram := foldl_ram_triple rams (2 ^ 64 - 1) 0 0 (by norm_num)
  have hvlen : values.length ≠ 0 := fun hn => by
    rw [List.length_eq_zero.mp hn] at hx; simp at hx
  have hrlen : rams.length ≠ 0 := fun hn => by
    rw [List.length_eq_zero.mp hn] at hr; simp at hr
  refine ⟨by rw [hflt], by rw [hflt], foldl_min_le_mem values 100 x hx,
    mem_le_foldl_max values 0 x hx, ?_, ?_, ?_, ?_, runTicks_totalTicks hasSmi inputs s⟩
  · rw [hflt]
    rw [fdiv_fin_fin _ _ (Nat.cast_ne_zero.mpr hvlen), zero_add]
  · rw [hram]
    exact foldl_min_le_mem rams (2 ^ 64 - 1) r hr
  · rw [hram]
    exact mem_le_foldl_max rams 0 r hr
  · rw [hram]
    unfold goDiv
    rw [if_neg hrlen, Nat.zero_add]

/-- Witness for C7 (amended) with values [1, 2], memory updates [1, 2],
one tick input. -/
theorem c7_witness :
    (([1, 2] : List ℚ).foldl (fun t v => floatAggStep t (.fin v))
      (.fin 100, .fin 0, .fin 0)).1 = .fin (([1, 2] : List ℚ).foldl min 100) ∧
    (([1, 2] : List ℚ).foldl (fun t v => floatAggStep t (.fin v))
      (.fin 100, .fin 0, .fin 0)).2.1 = .fin (([1, 2] : List ℚ).foldl max 0) ∧
    ([1, 2] : List ℚ).foldl min 100 ≤ 2 ∧ (2 : ℚ) ≤ ([1, 2] : List ℚ).foldl max 0 ∧
    fdiv (([1, 2] : List ℚ).foldl (fun t v => floatAggStep t (.fin v))
        (.fin 100, .fin 0, .fin 0)).2.2
      (.fin ((([1, 2] : List ℚ).length : ℕ) : ℚ)) =
      .fin (([1, 2] : List ℚ).sum / ((([1, 2] : List ℚ).length : ℕ) : ℚ)) ∧
    (([1, 2] : List ℕ).foldl ramAggStep (2 ^ 64 - 1, 0, 0)).1 ≤ 1 ∧
    (1 : ℕ) ≤ (([1, 2] : List ℕ).foldl ramAggStep (2 ^ 64 - 1, 0, 0)).2.1 ∧
    goDiv (([1, 2] : List ℕ).foldl ramAggStep (2 ^ 64 - 1, 0, 0)).2.2
      ([1, 2] : List ℕ).length = some (([1, 2] : List ℕ).sum % 2 ^ 64 / 2) ∧
    (runTicks false (initAgg ⟨0, 0⟩) [⟨none, none, []⟩]).1.totalTicks =
      (initAgg ⟨0, 0⟩).totalTicks + ([⟨none, none, []⟩] : List TickInput).length :=
  c7_aggregate_invariants [1, 2] [1, 2] false (initAgg ⟨0, 0⟩) [⟨none, none, []⟩]
    2 1 (by norm_num) (by norm_num)

end GoProfile
